import Mathlib

/-!
# Verification of diyaudioplayer.js

Shallow embedding of the playback intent reconciliation engine of
`src/diyaudioplayer.js` and proofs of the specification claims.

The module-level mutable variables of the script (`playlist`,
`playlistIndex`, `playing`, `deferredAudioSrc`, `deferredInitialSeekTime`,
`udfPrevTrackChangeHandlerIndex`, ...) become fields of `PlayerState`.
The HTMLAudioElement is the external native engine: its observable fields
(`src`, `currentTime`, `paused`, `ended`) are part of the state, and every
command issued to it (`audio.src = ...`, `audio.play()`, `audio.pause()`,
`audio.currentTime = ...`) is recorded in a command trace `cmds` so that
theorems can speak about which engine commands an operation issues.

User-defined handler invocations (`handleUdfPlay`/`Pause`/`Stop` and the
deduplicated `handleUdfTrackChange`) are recorded in an event trace
`events`.  The source's `null`-checks on the zero-argument handlers only
skip an absent user callback and have no further state effect, so those
dispatches are logged unconditionally; the track-change dispatcher's
check does matter (it gates the update of the remembered index), so the
registration flag for that handler is modelled explicitly.  Calls into
the track-change dispatcher are additionally recorded in `tcDispatches`
(whether or not deduplication suppresses the user callback), and a
`playlistLoaded` marker event records each successful `loadPlaylist` so
that cross-playlist properties of the trace can be stated.

The DOM/UI functions (`uiUpdateStatus`, `uiSetPlaybackPosition`,
`uiUpdateTrackSkipButtons`, `uiUpdatePlayPauseButton`, image preloading)
read core state but never write it; they are omitted.

JavaScript numbers for times/seek positions are modelled by `ℚ`; the
time formatter's possibly-NaN input is `Option ℚ` with `none` = NaN.
`throw` is modelled by `Except.error`; `loadPlaylist` is the only
function in the modelled core with a throw statement.
-/

namespace Diy

/-- A playlist entry: `url` is `none` when the object lacks a "url" key. -/
structure Track where
  url : Option String
deriving Repr, DecidableEq

/-- `playlist[i]["url"]` as assigned to `audio.src`; a missing key would
give the string coercion of `undefined`. -/
def trackSrc (t : Track) : String := t.url.getD "undefined"

/-- Observable fields of the native playback engine (HTMLAudioElement). -/
structure AudioEngine where
  src : String
  currentTime : ℚ
  paused : Bool
  ended : Bool
deriving Repr, DecidableEq

/-- Commands the player issues to the native engine, in order. -/
inductive EngineCmd where
  | setSrc (u : String)
  | play
  | pause
  | setCurrentTime (t : ℚ)
deriving Repr, DecidableEq

/-- User-visible lifecycle dispatches.  `playlistLoaded` is a trace marker
recorded at the point `loadPlaylist` resets the track-change
deduplication state (it corresponds to no user handler). -/
inductive Ev where
  | play
  | pause
  | stop
  | trackChange (i : ℕ)
  | playlistLoaded
deriving Repr, DecidableEq

/-- The whole mutable state of the player module, plus the two traces. -/
structure PlayerState where
  audio : AudioEngine
  playlist : List Track
  playlistIndex : ℕ
  playing : Bool
  deferredAudioSrc : Option String
  deferredInitialSeekTime : Option ℚ
  /-- is a user track-change handler registered (`udfTrackChangeHandler != null`)? -/
  tcHandlerRegistered : Bool
  /-- `udfPrevTrackChangeHandlerIndex` (null = `none`) -/
  udfPrevTrackChangeHandlerIndex : Option ℕ
  events : List Ev
  /-- every call of `handleUdfTrackChange`, deduplicated or not -/
  tcDispatches : List ℕ
  cmds : List EngineCmd
deriving Repr, DecidableEq

/-- `audio.src = u` -/
def engineSetSrc (u : String) (s : PlayerState) : PlayerState :=
  { s with audio := { s.audio with src := u }, cmds := s.cmds ++ [.setSrc u] }

/-- `audio.play()` (synchronous effect: the element is no longer paused;
success/failure of the returned promise is settled later). -/
def enginePlay (s : PlayerState) : PlayerState :=
  { s with audio := { s.audio with paused := false }, cmds := s.cmds ++ [.play] }

/-- `audio.pause()` -/
def enginePause (s : PlayerState) : PlayerState :=
  { s with audio := { s.audio with paused := true }, cmds := s.cmds ++ [.pause] }

/-- `audio.currentTime = t` -/
def engineSetCurrentTime (t : ℚ) (s : PlayerState) : PlayerState :=
  { s with audio := { s.audio with currentTime := t }, cmds := s.cmds ++ [.setCurrentTime t] }

/-- record a handler dispatch in the event trace -/
def emitEv (e : Ev) (s : PlayerState) : PlayerState :=
  { s with events := s.events ++ [e] }

/-- `handleUdfPlay()`: invokes the registered play handler, if any,
with failure isolation; observationally it is the dispatch itself. -/
def handleUdfPlay (s : PlayerState) : PlayerState := emitEv .play s

/-- `handleUdfPause()` -/
def handleUdfPause (s : PlayerState) : PlayerState := emitEv .pause s

/-- `handleUdfStop()` -/
def handleUdfStop (s : PlayerState) : PlayerState := emitEv .stop s

/-- `handleUdfTrackChange(playlistIndex)`: if a handler is registered and
the index differs from the remembered last-delivered index, invoke the
handler; in either case remember the index.  The call itself is recorded
in `tcDispatches`. -/
def handleUdfTrackChange (i : ℕ) (s : PlayerState) : PlayerState :=
  let s1 := { s with tcDispatches := s.tcDispatches ++ [i] }
  if s1.tcHandlerRegistered then
    let s2 := if s1.udfPrevTrackChangeHandlerIndex ≠ some i then emitEv (.trackChange i) s1 else s1
    { s2 with udfPrevTrackChangeHandlerIndex := some i }
  else
    s1

/-- `pause()` (lines 292-307): remember not playing, pause the engine,
update UI, call the user pause handler. -/
def pause (s : PlayerState) : PlayerState :=
  handleUdfPause (enginePause { s with playing := false })

/-- `stop()` (lines 260-284): remember not playing, pause the engine,
clear the deferred initial seek time, seek to 0, update UI, call the
user stop handler. -/
def stop (s : PlayerState) : PlayerState :=
  handleUdfStop (engineSetCurrentTime 0
    { enginePause { s with playing := false } with deferredInitialSeekTime := none })

/-- `play()` lines 203-252, synchronous body: set intent, load a deferred
source if any, apply a deferred initial seek if any, issue the engine
play command, dispatch track change for the current index, and fire the
play handler on a transition into playing.  The promise-rejection
callback attached at lines 226-239 is `playRejectionHandler` below. -/
def play (s : PlayerState) : PlayerState :=
  let wasAlreadyPlaying := s.playing
  let s1 := { s with playing := true }
  let s2 := match s1.deferredAudioSrc with
    | some u => { engineSetSrc u s1 with deferredAudioSrc := none }
    | none => s1
  let s3 := match s2.deferredInitialSeekTime with
    | some t => { engineSetCurrentTime t s2 with deferredInitialSeekTime := none }
    | none => s2
  let s4 := enginePlay s3
  let s5 := handleUdfTrackChange s4.playlistIndex s4
  if wasAlreadyPlaying then s5 else handleUdfPlay s5

/-- The `playPromise.catch` callback (lines 226-239): runs after the
synchronous body of the `play()` call that issued the command, when the
engine rejects the play request.  Remembers the source it was trying to
play, then calls `pause()`. -/
def playRejectionHandler (s : PlayerState) : PlayerState :=
  pause { s with deferredAudioSrc := some s.audio.src }

/-- `playPause()` -/
def playPause (s : PlayerState) : PlayerState :=
  if s.playing then pause s else play s

/-- `isPlaying()` -/
def isPlaying (s : PlayerState) : Bool := s.playing

/-- `getCurrentPlaylistIndex()` -/
def getCurrentPlaylistIndex (s : PlayerState) : ℕ := s.playlistIndex

/-- `seek(seconds)` (lines 346-371): when playing, seek the engine
immediately; otherwise remember the seek for later (and update the UI
position slider, which keeps no core state). -/
def seek (seconds : ℚ) (s : PlayerState) : PlayerState :=
  if s.playing then
    engineSetCurrentTime seconds s
  else
    { s with deferredInitialSeekTime := some seconds }

/-- `prevTrack()` (lines 379-408) -/
def prevTrack (s : PlayerState) : PlayerState :=
  let idx := if s.playlistIndex = 0 then s.playlist.length - 1 else s.playlistIndex - 1
  let s1 := { s with playlistIndex := idx,
                     deferredAudioSrc := none, deferredInitialSeekTime := none }
  let s2 := engineSetSrc (trackSrc (s1.playlist.getD idx ⟨none⟩)) s1
  let s3 := handleUdfTrackChange idx s2
  play s3

/-- `nextTrack()` (lines 416-445) -/
def nextTrack (s : PlayerState) : PlayerState :=
  let idx := if s.playlistIndex = s.playlist.length - 1 then 0 else s.playlistIndex + 1
  let s1 := { s with playlistIndex := idx,
                     deferredAudioSrc := none, deferredInitialSeekTime := none }
  let s2 := engineSetSrc (trackSrc (s1.playlist.getD idx ⟨none⟩)) s1
  let s3 := handleUdfTrackChange idx s2
  play s3

/-- `playTrack(trackIndex)` (lines 458-484): silently ignore an
out-of-range index; otherwise switch source when the index differs,
clear deferred state, and play. -/
def playTrack (trackIndex : ℤ) (s : PlayerState) : PlayerState :=
  if trackIndex < 0 ∨ (s.playlist.length : ℤ) ≤ trackIndex then
    s
  else
    let s1 :=
      if trackIndex.toNat ≠ s.playlistIndex then
        let s' := { s with playlistIndex := trackIndex.toNat }
        engineSetSrc (trackSrc (s'.playlist.getD s'.playlistIndex ⟨none⟩)) s'
      else s
    let s2 := { s1 with deferredAudioSrc := none, deferredInitialSeekTime := none }
    play s2

/-- `loadPlaylist` body after validation succeeds (lines 149-179). -/
def loadPlaylistOk (pl : List Track) (s : PlayerState) : PlayerState :=
  let s1 := { s with playlist := pl, playlistIndex := 0 }
  let wasPlaying := s1.playing
  let s2 := if wasPlaying then pause s1 else s1
  let s3 := { s2 with deferredAudioSrc := none, deferredInitialSeekTime := none }
  let s4 := engineSetSrc (trackSrc (pl.getD 0 ⟨none⟩)) s3
  -- line 173: invalidate the previous dedup index (marker recorded in the trace)
  let s5 := { s4 with udfPrevTrackChangeHandlerIndex := none,
                      events := s4.events ++ [.playlistLoaded] }
  let s6 := handleUdfTrackChange 0 s5
  if wasPlaying then play s6 else s6

/-- `loadPlaylist(userPlaylist)` (lines 136-180).  The argument is
`none` when the caller passed `undefined`.  Validation happens before
any mutation, so a thrown error leaves the state untouched. -/
def loadPlaylist (userPlaylist : Option (List Track)) (s : PlayerState) :
    Except String PlayerState :=
  match userPlaylist with
  | none => .error "playlist not found"
  | some pl =>
    if pl.length = 0 then
      .error "playlist can not be empty"
    else
      match pl.findIdx? (fun t => t.url.isNone) with
      | some i => .error ("playlist missing 'url' at playlist index " ++ toString i)
      | none => .ok (loadPlaylistOk pl s)

/-- `playStateIntervalHandler()` (lines 748-801): the reconciliation
tick.  Reads the intent and the live engine flags and corrects
divergence; on end of the last track it parks the player paused at the
beginning of the playlist. -/
def playStateIntervalHandler (s : PlayerState) : PlayerState :=
  if s.playing then
    if s.audio.ended then
      if s.playlistIndex < s.playlist.length - 1 then
        nextTrack s
      else
        let s1 := pause s
        let s2 := { s1 with playlistIndex := 0 }
        let s3 := engineSetSrc (trackSrc (s2.playlist.getD 0 ⟨none⟩)) s2
        let s4 := { s3 with deferredAudioSrc := none, deferredInitialSeekTime := none }
        handleUdfTrackChange 0 s4
    else if s.audio.paused then
      pause s
    else
      s
  else
    if ¬ s.audio.paused then play s else s

/-!
## Operation sequences

For trace properties quantified over "every sequence of operations",
public operations and environment actions are reified as `Op`.  A `play`
command issued to the engine may be rejected asynchronously; the
rejection callback runs after the synchronous body of the operation that
issued it, so each operation that can issue a play carries a `fail` flag
composing `playRejectionHandler` after its body.  `extSetEnded` /
`extSetPaused` model the engine flags changing through forces outside
the player's API (lock-screen controls, natural end of a track).
-/

/-- Public operations and environment actions. -/
inductive Op where
  | load (fail : Bool) (userPlaylist : Option (List Track))
  | play (fail : Bool)
  | pause
  | stop
  | playPause (fail : Bool)
  | seek (seconds : ℚ)
  | prev (fail : Bool)
  | next (fail : Bool)
  | playTrack (fail : Bool) (trackIndex : ℤ)
  | tick (fail : Bool)
  | extSetEnded (b : Bool)
  | extSetPaused (b : Bool)

/-- Compose the rejection callback of a just-issued play command when
`fail` and the operation did issue one (`.play` appears in its command
delta). -/
def withPlayOutcome (fail : Bool) (s : PlayerState) (s' : PlayerState) : PlayerState :=
  if fail ∧ EngineCmd.play ∈ s'.cmds.drop s.cmds.length then playRejectionHandler s' else s'

/-- One step.  A `loadPlaylist` error propagates to the caller leaving
the state unchanged (validation precedes all mutation). -/
def applyOp (s : PlayerState) (op : Op) : PlayerState :=
  match op with
  | .load fail upl =>
    match loadPlaylist upl s with
    | .error _ => s
    | .ok s' => withPlayOutcome fail s s'
  | .play fail => withPlayOutcome fail s (play s)
  | .pause => pause s
  | .stop => stop s
  | .playPause fail => withPlayOutcome fail s (playPause s)
  | .seek sec => seek sec s
  | .prev fail => withPlayOutcome fail s (prevTrack s)
  | .next fail => withPlayOutcome fail s (nextTrack s)
  | .playTrack fail i => withPlayOutcome fail s (playTrack i s)
  | .tick fail => withPlayOutcome fail s (playStateIntervalHandler s)
  | .extSetEnded b => { s with audio := { s.audio with ended := b } }
  | .extSetPaused b => { s with audio := { s.audio with paused := b } }

/-- Run a sequence of operations. -/
def run (ops : List Op) (s : PlayerState) : PlayerState :=
  ops.foldl applyOp s

/-- The state right after script load (with a user track-change handler
registered, as the claims about that handler presuppose). -/
def initState : PlayerState :=
  { audio := { src := "", currentTime := 0, paused := true, ended := false }
    playlist := []
    playlistIndex := 0
    playing := false
    deferredAudioSrc := none
    deferredInitialSeekTime := none
    tcHandlerRegistered := true
    udfPrevTrackChangeHandlerIndex := none
    events := []
    tcDispatches := []
    cmds := [] }

/-!
## Trace predicates for the track-change dedup claims
-/

/-- Keep only track-change deliveries and playlist-load markers. -/
def tcView (l : List Ev) : List Ev :=
  l.filter fun e =>
    match e with
    | .trackChange _ => true
    | .playlistLoaded => true
    | _ => false

/-- Adjacent-pair condition: two consecutive track-change deliveries
never carry the same index. -/
def tcOkB (a b : Ev) : Bool :=
  match a, b with
  | .trackChange i, .trackChange j => i ≠ j
  | _, _ => true

/-- No two consecutive track-change deliveries with the same index
(a playlist-load marker between them breaks adjacency). -/
def noAdjDupTc (l : List Ev) : Prop :=
  l.Chain' fun a b => tcOkB a b = true

instance (l : List Ev) : Decidable (noAdjDupTc l) :=
  inferInstanceAs (Decidable (l.Chain' _))

/-!
## Time formatter
-/

/-- `Math.round` on the non-negative values this module rounds. -/
def jsRound (q : ℚ) : ℤ := ⌊q + 1 / 2⌋

/-- Lines 527-567 of `secondsToDisplayTime`: everything after
`intTotalSeconds` has been computed (`Math.round` of the integer
`intTotalSeconds % 60` is itself). -/
def displayTimeOfTotal (displayTimeZeroPad : Bool) (maybeNegative : String)
    (intTotalSeconds : ℕ) : String :=
  let intHours := intTotalSeconds / 3600
  let intMinutes := intTotalSeconds / 60
  let intSeconds := intTotalSeconds % 60
  let strMinutes := toString intMinutes
  let strMinutes :=
    if displayTimeZeroPad then
      if intMinutes < 10 then "0" ++ toString intMinutes else strMinutes
    else strMinutes
  let strSeconds := toString intSeconds
  let strSeconds := if intSeconds < 10 then "0" ++ toString intSeconds else strSeconds
  if 0 < intHours then
    let strHours := toString intHours
    let modMinutes := intMinutes % 60
    let strMinutes := if modMinutes < 10 then "0" ++ toString modMinutes else toString modMinutes
    maybeNegative ++ strHours ++ ":" ++ strMinutes ++ ":" ++ strSeconds
  else
    maybeNegative ++ strMinutes ++ ":" ++ strSeconds

/-- `secondsToDisplayTime(seconds)` (lines 517-568).  The module globals
`noTime` and `displayTimeZeroPad` are passed explicitly; a NaN input is
`none`.  The source's re-checks of `Number.isNaN` on the derived integer
values cannot fire once the input is a number. -/
def secondsToDisplayTime (noTime : String) (displayTimeZeroPad : Bool)
    (seconds : Option ℚ) : String :=
  match seconds with
  | none => noTime
  | some secs =>
    displayTimeOfTotal displayTimeZeroPad (if secs < 0 then "-" else "")
      (jsRound |secs|).toNat

/-- two-digit zero padding -/
def pad2 (n : ℕ) : String := if n < 10 then "0" ++ toString n else toString n

/-- Reference formatter, following the spec's words (§8 / claim C8):
round the absolute value to whole seconds, split into hours, minutes and
seconds with the hours field elided when zero, prefix a minus sign for
negative input, and return the no-time string for NaN. -/
def displayTimeSpec (noTime : String) (seconds : Option ℚ) : String :=
  match seconds with
  | none => noTime
  | some secs =>
    let sign := if secs < 0 then "-" else ""
    let t : ℕ := (jsRound |secs|).toNat
    if t / 3600 = 0 then sign ++ toString (t % 3600 / 60) ++ ":" ++ pad2 (t % 60)
    else sign ++ toString (t / 3600) ++ ":" ++ pad2 (t % 3600 / 60) ++ ":" ++ pad2 (t % 60)

/-- split a character list on a separator character -/
def splitOnChar (c : Char) : List Char → List (List Char)
  | [] => [[]]
  | x :: xs =>
    let rest := splitOnChar c xs
    if x = c then [] :: rest
    else
      match rest with
      | r :: rs => (x :: r) :: rs
      | [] => [[x]]

/-- The minutes field of a formatted display time: the colon-separated
field before the seconds field, after any hours field. -/
def minutesField (out : String) : Option String :=
  let parts := (splitOnChar ':' out.data).map (fun l => String.mk l)
  if parts.length = 3 then parts.get? 1 else parts.get? 0

/-- A minutes field is zero-padded when a leading zero widens it to two
digits. -/
def zeroPaddedB (f : String) : Bool := 2 ≤ f.data.length && f.data.head? = some '0'

/-- is an engine command a seek (`audio.currentTime = ...`)? -/
def isSeekCmd (c : EngineCmd) : Bool :=
  match c with
  | .setCurrentTime _ => true
  | _ => false

/-- a three-track demo playlist for concrete witnesses -/
def demoState : PlayerState :=
  { initState with playlist := [⟨some "a.mp3"⟩, ⟨some "b.mp3"⟩, ⟨some "c.mp3"⟩] }

/-- demo playlist, playing on the last track, engine reports ended -/
def demoEndedState : PlayerState :=
  { demoState with
      playing := true
      playlistIndex := 2
      audio := { demoState.audio with ended := true } }

/-!
## Dispatcher-state abstraction

For the deduplication claims, the only state an operation's effect on
the track-change dispatcher can have is a sequence of three kinds of
atomic actions on the triple (handler registered, remembered index,
event log): appending a non-track-change event, invoking the
deduplicating dispatcher, and the reset-and-mark step of `loadPlaylist`.
-/

/-- the dispatcher-relevant part of the state -/
def dspTriple (s : PlayerState) : Bool × Option ℕ × List Ev :=
  (s.tcHandlerRegistered, s.udfPrevTrackChangeHandlerIndex, s.events)

/-- atomic actions on the dispatcher state -/
inductive DAct where
  | emit (e : Ev)
  | dispatch (i : ℕ)
  | reset

/-- effect of one atomic action -/
def dapply (a : DAct) (t : Bool × Option ℕ × List Ev) : Bool × Option ℕ × List Ev :=
  match a, t with
  | .emit e, (r, p, l) => (r, p, l ++ [e])
  | .dispatch i, (r, p, l) =>
    if r then (r, some i, if p ≠ some i then l ++ [.trackChange i] else l) else (r, p, l)
  | .reset, (r, _, l) => (r, none, l ++ [.playlistLoaded])

/-- effect of a sequence of atomic actions -/
def dapplyList (as : List DAct) (t : Bool × Option ℕ × List Ev) : Bool × Option ℕ × List Ev :=
  as.foldl (fun t a => dapply a t) t

/-- an `emit` action may only carry a non-track-change event -/
def goodAct : DAct → Prop
  | .emit e => tcView [e] = []
  | _ => True

/-- Dispatcher invariant: the handler is registered, the delivered
track-change sequence has no adjacent duplicates, and the remembered
index matches the last entry of the filtered log (or the log ends in a
fresh playlist-load marker when no index is remembered). -/
def InvT (t : Bool × Option ℕ × List Ev) : Prop :=
  t.1 = true ∧ noAdjDupTc (tcView t.2.2) ∧
  (match t.2.1 with
   | none => tcView t.2.2 = [] ∨ (tcView t.2.2).getLast? = some Ev.playlistLoaded
   | some i => (tcView t.2.2).getLast? = some (Ev.trackChange i))

/-- the dispatcher invariant on player states -/
def Inv (s : PlayerState) : Prop := InvT (dspTriple s)

/-!
## Frame lemmas
-/

/-- Field characterization of the synchronous body of `play()`. -/
theorem play_spec (s : PlayerState) :
    (play s).playing = true ∧
    (play s).playlistIndex = s.playlistIndex ∧
    (play s).playlist = s.playlist ∧
    (play s).deferredAudioSrc = none ∧
    (play s).deferredInitialSeekTime = none ∧
    (play s).audio.src = s.deferredAudioSrc.getD s.audio.src ∧
    (play s).audio.currentTime = s.deferredInitialSeekTime.getD s.audio.currentTime ∧
    (play s).cmds = s.cmds ++
      (match s.deferredAudioSrc with | some u => [EngineCmd.setSrc u] | none => []) ++
      (match s.deferredInitialSeekTime with | some t => [EngineCmd.setCurrentTime t] | none => []) ++
      [EngineCmd.play] ∧
    (play s).tcHandlerRegistered = s.tcHandlerRegistered ∧
    (play s).tcDispatches = s.tcDispatches ++ [s.playlistIndex] := by
  cases hd : s.deferredAudioSrc <;> cases ht : s.deferredInitialSeekTime <;>
    cases hp : s.playing <;>
    simp [play, hd, ht, hp, engineSetSrc, engineSetCurrentTime, enginePlay,
      handleUdfTrackChange, handleUdfPlay, emitEv] <;>
    split <;> (try split) <;> simp

theorem play_playlistIndex (s : PlayerState) : (play s).playlistIndex = s.playlistIndex :=
  (play_spec s).2.1

theorem play_playlist (s : PlayerState) : (play s).playlist = s.playlist :=
  (play_spec s).2.2.1

theorem pause_spec (s : PlayerState) :
    pause s = { s with playing := false,
                       audio := { s.audio with paused := true },
                       events := s.events ++ [Ev.pause],
                       cmds := s.cmds ++ [EngineCmd.pause] } := by
  simp [pause, handleUdfPause, emitEv, enginePause]

theorem stop_spec (s : PlayerState) :
    stop s = { s with playing := false,
                      deferredInitialSeekTime := none,
                      audio := { s.audio with paused := true, currentTime := 0 },
                      events := s.events ++ [Ev.stop],
                      cmds := s.cmds ++ [EngineCmd.pause, EngineCmd.setCurrentTime 0] } := by
  simp [stop, handleUdfStop, emitEv, enginePause, engineSetCurrentTime]

theorem playRejectionHandler_spec (s : PlayerState) :
    playRejectionHandler s = { s with playing := false,
                                      deferredAudioSrc := some s.audio.src,
                                      audio := { s.audio with paused := true },
                                      events := s.events ++ [Ev.pause],
                                      cmds := s.cmds ++ [EngineCmd.pause] } := by
  simp [playRejectionHandler, pause_spec]

/-- On every successful load the index is 0, the deferred operations are
cleared and the engine holds the first track's source. -/
theorem loadPlaylistOk_spec (pl : List Track) (s : PlayerState) :
    getCurrentPlaylistIndex (loadPlaylistOk pl s) = 0 ∧
    (loadPlaylistOk pl s).deferredAudioSrc = none ∧
    (loadPlaylistOk pl s).deferredInitialSeekTime = none ∧
    (loadPlaylistOk pl s).audio.src = trackSrc (pl.getD 0 ⟨none⟩) := by
  cases hp : s.playing <;>
    simp [loadPlaylistOk, getCurrentPlaylistIndex, hp, pause_spec, engineSetSrc,
      handleUdfTrackChange, emitEv, play, enginePlay, engineSetCurrentTime,
      handleUdfPlay] <;>
    split <;> (try split) <;> simp [emitEv]

/-!
## Claims
-/

/-- **C6.** For every playlist of length L ≥ 1: `nextTrack()` on the last
index wraps the current index to 0, `prevTrack()` on index 0 wraps it to
L-1, and for L = 1 both operations leave the index at 0. -/
theorem c6_wraparound (s : PlayerState) (hL : 1 ≤ s.playlist.length) :
    (s.playlistIndex = s.playlist.length - 1 → (nextTrack s).playlistIndex = 0) ∧
    (s.playlistIndex = 0 → (prevTrack s).playlistIndex = s.playlist.length - 1) ∧
    (s.playlist.length = 1 → s.playlistIndex = 0 →
      (nextTrack s).playlistIndex = 0 ∧ (prevTrack s).playlistIndex = 0) := by
  refine ⟨fun h => ?_, fun h => ?_, fun h1 h0 => ⟨?_, ?_⟩⟩ <;>
    simp only [nextTrack, prevTrack, play_playlistIndex, handleUdfTrackChange,
      engineSetSrc] <;>
    first
      | (rw [if_pos h]; split <;> (try split) <;> simp [emitEv])
      | (rw [if_pos h0]; split <;> (try split) <;> simp [emitEv, h1])
      | (rw [if_pos (by omega : s.playlistIndex = s.playlist.length - 1)]
         split <;> (try split) <;> simp [emitEv])

/-- **C6 witness** at a concrete three-track playlist. -/
theorem c6_wraparound_witness :
    1 ≤ demoState.playlist.length ∧
    ((nextTrack { demoState with playlistIndex := 2 }).playlistIndex = 0 ∧
      (prevTrack demoState).playlistIndex = demoState.playlist.length - 1) := by
  refine ⟨by decide, ?_, ?_⟩
  · exact (c6_wraparound { demoState with playlistIndex := 2 } (by decide)).1 (by decide)
  · exact (c6_wraparound demoState (by decide)).2.1 (by decide)

/-- **C7.** `playTrack(i)` with `i` outside `[0, length)` is a complete
silent no-op: the entire state (current index, intent, deferred source,
deferred seek, traces) is returned unchanged, and — since the bounds
check precedes every mutation and the function contains no throw — no
error is raised. -/
theorem c7_playTrack_out_of_range_noop (s : PlayerState) (i : ℤ)
    (h : i < 0 ∨ (s.playlist.length : ℤ) ≤ i) : playTrack i s = s := by
  unfold playTrack
  rw [if_pos h]

/-- **C7 witness**: `playTrack(3)` on a three-track playlist. -/
theorem c7_playTrack_out_of_range_noop_witness :
    ((3 : ℤ) < 0 ∨ (demoState.playlist.length : ℤ) ≤ 3) ∧ playTrack 3 demoState = demoState :=
  ⟨by decide, c7_playTrack_out_of_range_noop demoState 3 (by decide)⟩

/-- **C2.** When the engine rejects the play command issued by `play()`,
the rejection callback records the source the player was trying to play
(the deferred source just loaded, if any, else the engine's current
source) as the new deferred source, forces intent back to not-playing
through `pause()` — firing the pause handler and issuing the engine
pause — and a later `play()` retries exactly that source.  No error
reaches the caller of `play()`: the only throw statement of the modelled
core is in `loadPlaylist`, so `play` is total on states
(`Except.error` never arises). -/
theorem c2_play_rejection_recovery (s : PlayerState) :
    (playRejectionHandler (play s)).deferredAudioSrc = some ((play s).audio.src) ∧
    (play s).audio.src = s.deferredAudioSrc.getD s.audio.src ∧
    (playRejectionHandler (play s)).playing = false ∧
    (playRejectionHandler (play s)).events = (play s).events ++ [Ev.pause] ∧
    (playRejectionHandler (play s)).cmds = (play s).cmds ++ [EngineCmd.pause] ∧
    (play (playRejectionHandler (play s))).audio.src = (play s).audio.src ∧
    (play (playRejectionHandler (play s))).cmds =
      (playRejectionHandler (play s)).cmds ++
        [EngineCmd.setSrc ((play s).audio.src), EngineCmd.play] := by
  obtain ⟨_, _, _, h4, h5, h6, _, _, _, _⟩ := play_spec s
  obtain ⟨_, _, _, _, _, g6, _, g8, _, _⟩ := play_spec (playRejectionHandler (play s))
  refine ⟨?_, h6, ?_, ?_, ?_, ?_, ?_⟩ <;>
    simp_all [playRejectionHandler_spec]

/-- **C4.** `seek(s)` while intent is not-playing issues no engine seek
and records the value as the deferred seek; the next `play()` (no
intervening operation) assigns exactly that value to the engine's
current time, exactly once among the engine seek commands it issues, and
clears the deferred seek. -/
theorem c4_deferred_seek_applied_once (s : PlayerState) (sec : ℚ)
    (h : s.playing = false) :
    (seek sec s).deferredInitialSeekTime = some sec ∧
    (seek sec s).cmds = s.cmds ∧
    (seek sec s).audio.currentTime = s.audio.currentTime ∧
    (play (seek sec s)).audio.currentTime = sec ∧
    (play (seek sec s)).deferredInitialSeekTime = none ∧
    (play (seek sec s)).cmds.filter isSeekCmd =
      s.cmds.filter isSeekCmd ++ [EngineCmd.setCurrentTime sec] := by
  have hs : seek sec s = { s with deferredInitialSeekTime := some sec } := by
    simp [seek, h]
  obtain ⟨_, _, _, _, g5, _, g7, g8, _, _⟩ := play_spec { s with deferredInitialSeekTime := some sec }
  rw [hs]
  refine ⟨rfl, rfl, rfl, by simp [g7], g5, ?_⟩
  rw [g8]
  cases s.deferredAudioSrc <;> simp [isSeekCmd, List.filter_append]

/-- **C4 witness**: deferred seek to 7 seconds on the paused demo state. -/
theorem c4_deferred_seek_applied_once_witness :
    demoState.playing = false ∧
    ((seek 7 demoState).deferredInitialSeekTime = some 7 ∧
      (seek 7 demoState).cmds = demoState.cmds ∧
      (seek 7 demoState).audio.currentTime = demoState.audio.currentTime ∧
      (play (seek 7 demoState)).audio.currentTime = 7 ∧
      (play (seek 7 demoState)).deferredInitialSeekTime = none ∧
      (play (seek 7 demoState)).cmds.filter isSeekCmd =
        demoState.cmds.filter isSeekCmd ++ [EngineCmd.setCurrentTime 7]) :=
  ⟨rfl, c4_deferred_seek_applied_once demoState 7 rfl⟩

/-- **C10.** `stop()` clears the deferred seek, leaves the deferred
source (and every other deferred field) unchanged, and a deferred source
recorded by a failed play survives `stop()`: the next `play()` still
retries it. -/
theorem c10_stop_preserves_deferred_source (s : PlayerState) :
    (stop s).deferredInitialSeekTime = none ∧
    (stop s).deferredAudioSrc = s.deferredAudioSrc ∧
    (∀ u, s.deferredAudioSrc = some u →
      (play (stop s)).audio.src = u ∧
      (play (stop s)).cmds = (stop s).cmds ++ [EngineCmd.setSrc u, EngineCmd.play]) := by
  obtain ⟨_, _, _, _, _, g6, _, g8, _, _⟩ := play_spec (stop s)
  refine ⟨by simp [stop_spec], by simp [stop_spec], fun u hu => ⟨?_, ?_⟩⟩
  · rw [g6]; simp [stop_spec, hu]
  · rw [g8]; simp [stop_spec, hu]

/-- **C10 witness**: a deferred source "x.mp3" survives `stop()` and is
retried by the next `play()`. -/
theorem c10_stop_preserves_deferred_source_witness :
    ({ demoState with deferredAudioSrc := some "x.mp3" } : PlayerState).deferredAudioSrc
        = some "x.mp3" ∧
    (play (stop { demoState with deferredAudioSrc := some "x.mp3" })).audio.src = "x.mp3" ∧
    (play (stop { demoState with deferredAudioSrc := some "x.mp3" })).cmds =
      (stop { demoState with deferredAudioSrc := some "x.mp3" }).cmds ++
        [EngineCmd.setSrc "x.mp3", EngineCmd.play] :=
  ⟨rfl,
    (c10_stop_preserves_deferred_source
      { demoState with deferredAudioSrc := some "x.mp3" }).2.2 "x.mp3" rfl⟩

/-- **C1.** If intent is playing, the engine reports the current track
ended, and the current index is the last index, one reconciliation tick
sets intent to not-playing, resets the index to 0, assigns the first
track's source, clears both deferred operations, dispatches a track
change for index 0, and issues no play command to the engine — the
commands it issues are exactly the pause and the source assignment. -/
theorem c1_end_of_playlist_parks_paused (s : PlayerState)
    (hp : s.playing = true) (he : s.audio.ended = true)
    (hL : 1 ≤ s.playlist.length)
    (hi : s.playlistIndex = s.playlist.length - 1) :
    (playStateIntervalHandler s).playing = false ∧
    (playStateIntervalHandler s).playlistIndex = 0 ∧
    (playStateIntervalHandler s).audio.src = trackSrc (s.playlist.getD 0 ⟨none⟩) ∧
    (playStateIntervalHandler s).deferredAudioSrc = none ∧
    (playStateIntervalHandler s).deferredInitialSeekTime = none ∧
    (playStateIntervalHandler s).tcDispatches = s.tcDispatches ++ [0] ∧
    (playStateIntervalHandler s).cmds =
      s.cmds ++ [EngineCmd.pause, EngineCmd.setSrc (trackSrc (s.playlist.getD 0 ⟨none⟩))] := by
  have hlt : ¬ s.playlistIndex < s.playlist.length - 1 := by omega
  simp only [playStateIntervalHandler, hp, he, if_true, if_pos, hlt, if_false,
    pause_spec, engineSetSrc, handleUdfTrackChange]
  split <;> (try split) <;> simp [emitEv]

/-- **C1 witness**: three-track demo playlist, playing on the last
track, engine reports ended. -/
theorem c1_end_of_playlist_parks_paused_witness :
    demoEndedState.playing = true ∧
    (playStateIntervalHandler demoEndedState).playing = false ∧
    (playStateIntervalHandler demoEndedState).playlistIndex = 0 :=
  ⟨rfl,
    (c1_end_of_playlist_parks_paused demoEndedState rfl rfl (by decide) (by decide)).1,
    (c1_end_of_playlist_parks_paused demoEndedState rfl rfl (by decide) (by decide)).2.1⟩

/-- **C5.** `loadPlaylist` raises an error (synchronously, before any
mutation) iff the playlist argument is absent (`undefined`), empty, or
has an element lacking a "url" entry; on success the current index is 0,
both deferred operations are cleared, and the first track's source is
assigned to the engine. -/
theorem c5_loadPlaylist_validation (upl : Option (List Track)) (s : PlayerState) :
    ((∃ e, loadPlaylist upl s = .error e) ↔
      upl = none ∨ ∃ pl, upl = some pl ∧ (pl = [] ∨ ∃ t ∈ pl, t.url = none)) ∧
    (∀ pl s', upl = some pl → loadPlaylist upl s = .ok s' →
      getCurrentPlaylistIndex s' = 0 ∧
      s'.deferredAudioSrc = none ∧
      s'.deferredInitialSeekTime = none ∧
      s'.audio.src = trackSrc (pl.getD 0 ⟨none⟩)) := by
  constructor
  · cases upl with
    | none => simp [loadPlaylist]
    | some pl =>
      simp only [loadPlaylist]
      by_cases h0 : pl.length = 0
      · simp [h0, List.length_eq_zero.mp h0]
      · rw [if_neg h0]
        cases hf : pl.findIdx? (fun t => t.url.isNone) with
        | some i =>
          simp only [reduceCtorEq, false_or, Option.some.injEq]
          constructor
          · intro _
            refine ⟨pl, rfl, Or.inr ?_⟩
            by_contra hc
            push_neg at hc
            have : pl.findIdx? (fun t => t.url.isNone) = none := by
              rw [List.findIdx?_eq_none_iff]
              intro t ht
              simpa [Option.isSome_iff_ne_none] using hc t ht
            simp [this] at hf
          · intro _
            exact ⟨_, rfl⟩
        | none =>
          rw [List.findIdx?_eq_none_iff] at hf
          simp only [reduceCtorEq, false_or, Option.some.injEq]
          constructor
          · rintro ⟨e, he⟩
            simp at he
          · rintro ⟨pl', rfl, h | ⟨t, ht, hurl⟩⟩
            · exact absurd (h ▸ rfl) h0
            · have := hf t ht
              simp [hurl] at this
  · rintro pl s' rfl hok
    have hs' : s' = loadPlaylistOk pl s := by
      simp only [loadPlaylist] at hok
      split at hok
      · exact absurd hok (by simp)
      · split at hok
        · exact absurd hok (by simp)
        · simpa using hok.symm
    subst hs'
    exact loadPlaylistOk_spec pl s

/-- **C5 witness**: loading a valid one-track playlist succeeds with
index 0, and loading an empty playlist raises an error. -/
theorem c5_loadPlaylist_validation_witness :
    loadPlaylist (some [Track.mk (some "a.mp3")]) initState
        = .ok (loadPlaylistOk [Track.mk (some "a.mp3")] initState) ∧
    getCurrentPlaylistIndex (loadPlaylistOk [Track.mk (some "a.mp3")] initState) = 0 ∧
    (∃ e, loadPlaylist (some ([] : List Track)) initState = .error e) := by
  have hok : loadPlaylist (some [Track.mk (some "a.mp3")]) initState
      = .ok (loadPlaylistOk [Track.mk (some "a.mp3")] initState) := rfl
  refine ⟨hok, ?_, ?_⟩
  · exact ((c5_loadPlaylist_validation (some [Track.mk (some "a.mp3")]) initState).2
      [Track.mk (some "a.mp3")] _ rfl hok).1
  · exact (c5_loadPlaylist_validation (some ([] : List Track)) initState).1.mpr
      (Or.inr ⟨[], rfl, Or.inl rfl⟩)

/-!
## Formatter lemmas
-/

/-- With an hours field, the output of the integer formatting core does
not depend on the zero-pad setting. -/
theorem displayTimeOfTotal_hours_pad_irrelevant (sign : String) (t : ℕ)
    (h : 3600 ≤ t) (pad : Bool) :
    displayTimeOfTotal pad sign t = displayTimeOfTotal false sign t := by
  have h1 : 0 < t / 3600 := by omega
  simp only [displayTimeOfTotal]
  rw [if_pos h1, if_pos h1]

/-- Below one hour, minutes are zero-padded exactly when the setting is
enabled (seconds are always two-digit). -/
theorem displayTimeOfTotal_subhour (sign : String) (t : ℕ) (h : t < 3600) (pad : Bool) :
    displayTimeOfTotal pad sign t =
      sign ++ (if pad = true then pad2 (t / 60) else toString (t / 60)) ++ ":" ++
        pad2 (t % 60) := by
  have h1 : ¬ 0 < t / 3600 := by omega
  cases pad <;> simp only [displayTimeOfTotal, pad2, if_neg h1] <;> (try simp)

/-- With padding disabled, the integer formatting core produces the
h:mm:ss / m:ss reference shape. -/
theorem displayTimeOfTotal_false_spec (sign : String) (t : ℕ) :
    displayTimeOfTotal false sign t =
      if t / 3600 = 0 then sign ++ toString (t % 3600 / 60) ++ ":" ++ pad2 (t % 60)
      else sign ++ toString (t / 3600) ++ ":" ++ pad2 (t % 3600 / 60) ++ ":" ++
        pad2 (t % 60) := by
  by_cases h : t / 3600 = 0
  · have ht : t % 3600 / 60 = t / 60 := by omega
    simp only [displayTimeOfTotal, pad2]
    rw [if_neg (by omega : ¬ 0 < t / 3600), if_pos h, ht]
    simp
  · have hm : t / 60 % 60 = t % 3600 / 60 := by omega
    simp only [displayTimeOfTotal, pad2]
    rw [if_pos (by omega : 0 < t / 3600), if_neg h, hm]

theorem jsRound_abs_65 : (jsRound |(65 : ℚ)|).toNat = 65 := by
  have : jsRound |(65 : ℚ)| = 65 := by norm_num [jsRound]
  rw [this]; rfl

theorem jsRound_abs_neg65 : (jsRound |(-65 : ℚ)|).toNat = 65 := by
  have : jsRound |(-65 : ℚ)| = 65 := by norm_num [jsRound]
  rw [this]; rfl

theorem jsRound_abs_3661 : (jsRound |(3661 : ℚ)|).toNat = 3661 := by
  have : jsRound |(3661 : ℚ)| = 3661 := by norm_num [jsRound]
  rw [this]; rfl

theorem jsRound_abs_42 : (jsRound |(42 : ℚ)|).toNat = 42 := by
  have : jsRound |(42 : ℚ)| = 42 := by norm_num [jsRound]
  rw [this]; rfl

theorem jsRound_abs_0 : (jsRound |(0 : ℚ)|).toNat = 0 := by
  norm_num [jsRound]

/-- **C8.** With padding disabled (the default), the display-time
formatter equals the reference definition — round `|input|` to whole
seconds, split into hours/minutes/seconds with the hours field elided
when zero, prefix "-" for negative input, and return the configurable
no-time string for NaN — and takes the spec's sample values. -/
theorem c8_display_time_matches_spec :
    (∀ (noTime : String) (q : Option ℚ),
      secondsToDisplayTime noTime false q = displayTimeSpec noTime q) ∧
    secondsToDisplayTime "--:--" false (some 0) = "0:00" ∧
    secondsToDisplayTime "--:--" false (some 65) = "1:05" ∧
    secondsToDisplayTime "--:--" false (some (-65)) = "-1:05" ∧
    secondsToDisplayTime "--:--" false (some 3661) = "1:01:01" ∧
    (∀ noTime : String, secondsToDisplayTime noTime false none = noTime) := by
  refine ⟨fun noTime q => ?_, ?_, ?_, ?_, ?_, fun _ => rfl⟩
  · cases q with
    | none => rfl
    | some v =>
      simp only [secondsToDisplayTime, displayTimeSpec]
      exact displayTimeOfTotal_false_spec _ _
  · simp only [secondsToDisplayTime, jsRound_abs_0]
    rw [if_neg (by norm_num : ¬ (0 : ℚ) < 0)]
    decide
  · simp only [secondsToDisplayTime, jsRound_abs_65]
    rw [if_neg (by norm_num : ¬ (65 : ℚ) < 0)]
    decide
  · simp only [secondsToDisplayTime, jsRound_abs_neg65]
    rw [if_pos (by norm_num : (-65 : ℚ) < 0)]
    decide
  · simp only [secondsToDisplayTime, jsRound_abs_3661]
    rw [if_neg (by norm_num : ¬ (3661 : ℚ) < 0)]
    decide

/-- **C9 counterexample.** The claim says that whenever padding is
disabled the minutes field is not zero-padded; but with padding disabled
the formatter renders 3661 seconds as "1:01:01", whose minutes field
"01" is zero-padded (the hours branch always pads minutes to two
digits). -/
theorem c9_zero_pad_counterexample :
    secondsToDisplayTime "--:--" false (some 3661) = "1:01:01" ∧
    minutesField (secondsToDisplayTime "--:--" false (some 3661)) = some "01" ∧
    zeroPaddedB "01" = true ∧ ("01" : String) ≠ toString (1 : ℕ) := by
  have h : secondsToDisplayTime "--:--" false (some 3661) = "1:01:01" := by
    simp only [secondsToDisplayTime, jsRound_abs_3661]
    rw [if_neg (by norm_num : ¬ (3661 : ℚ) < 0)]
    decide
  exact ⟨h, by rw [h]; decide, by decide, by decide⟩

/-- **C9 (amended).** The explicit zero-pad setting affects only inputs
below one hour: when the formatted time includes an hours field the
output is identical whether padding is enabled or not (minutes are then
always two-digit); below one hour the minutes field is zero-padded
exactly when padding is enabled (and the value is below 10), so
format(42) is "0:42" unpadded and "00:42" padded. -/
theorem c9_minutes_padding_scope (q : ℚ) (noTime : String) (pad : Bool) :
    (3600 ≤ (jsRound |q|).toNat →
      secondsToDisplayTime noTime pad (some q) = secondsToDisplayTime noTime false (some q)) ∧
    ((jsRound |q|).toNat < 3600 →
      secondsToDisplayTime noTime pad (some q) =
        (if q < 0 then "-" else "") ++
          (if pad = true then pad2 ((jsRound |q|).toNat / 60)
            else toString ((jsRound |q|).toNat / 60)) ++ ":" ++
          pad2 ((jsRound |q|).toNat % 60)) ∧
    secondsToDisplayTime "--:--" false (some 42) = "0:42" ∧
    secondsToDisplayTime "--:--" true (some 42) = "00:42" := by
  refine ⟨fun h => ?_, fun h => ?_, ?_, ?_⟩
  · simp only [secondsToDisplayTime]
    exact displayTimeOfTotal_hours_pad_irrelevant _ _ h pad
  · simp only [secondsToDisplayTime]
    exact displayTimeOfTotal_subhour _ _ h pad
  · simp only [secondsToDisplayTime, jsRound_abs_42]
    rw [if_neg (by norm_num : ¬ (42 : ℚ) < 0)]
    decide
  · simp only [secondsToDisplayTime, jsRound_abs_42]
    rw [if_neg (by norm_num : ¬ (42 : ℚ) < 0)]
    decide

/-- **C9 (amended) witness**: both branches exercised — at 3661 seconds
the padded and unpadded outputs agree, and at 42 seconds enabling
padding pads the minutes field. -/
theorem c9_minutes_padding_scope_witness :
    (3600 ≤ (jsRound |(3661 : ℚ)|).toNat ∧
      secondsToDisplayTime "--:--" true (some 3661)
        = secondsToDisplayTime "--:--" false (some 3661)) ∧
    ((jsRound |(42 : ℚ)|).toNat < 3600 ∧
      secondsToDisplayTime "--:--" true (some 42)
        = "" ++ pad2 ((jsRound |(42 : ℚ)|).toNat / 60) ++ ":" ++
            pad2 ((jsRound |(42 : ℚ)|).toNat % 60)) := by
  have h1 : 3600 ≤ (jsRound |(3661 : ℚ)|).toNat := by rw [jsRound_abs_3661]; decide
  have h2 : (jsRound |(42 : ℚ)|).toNat < 3600 := by rw [jsRound_abs_42]; decide
  refine ⟨⟨h1, (c9_minutes_padding_scope 3661 "--:--" true).1 h1⟩, ⟨h2, ?_⟩⟩
  have h3 := (c9_minutes_padding_scope 42 "--:--" true).2.1 h2
  rw [h3, if_neg (by norm_num : ¬ (42 : ℚ) < 0), if_pos rfl]

/-!
## Dispatcher invariant lemmas (claim C3)
-/

theorem tcView_append (a b : List Ev) : tcView (a ++ b) = tcView a ++ tcView b :=
  List.filter_append _ _

theorem invT_emit (e : Ev) (he : tcView [e] = []) (t : Bool × Option ℕ × List Ev)
    (h : InvT t) : InvT (dapply (.emit e) t) := by
  obtain ⟨r, p, l⟩ := t
  obtain ⟨h1, h2, h3⟩ := h
  exact ⟨h1, by simpa [dapply, tcView_append, he] using h2,
    by simpa [dapply, tcView_append, he] using h3⟩

theorem invT_dispatch (i : ℕ) (t : Bool × Option ℕ × List Ev)
    (h : InvT t) : InvT (dapply (.dispatch i) t) := by
  obtain ⟨r, p, l⟩ := t
  obtain ⟨h1, h2, h3⟩ := h
  simp only at h1
  subst h1
  have hd : dapply (.dispatch i) (true, p, l) =
      (true, some i, if p ≠ some i then l ++ [Ev.trackChange i] else l) := by
    simp [dapply]
  rw [hd]
  by_cases hp : p = some i
  · subst hp
    rw [if_neg (by simp)]
    exact ⟨rfl, h2, by simpa using h3⟩
  · rw [if_pos hp]
    refine ⟨rfl, ?_, ?_⟩
    · show noAdjDupTc (tcView (l ++ [Ev.trackChange i]))
      rw [tcView_append]
      refine List.chain'_append.mpr ⟨h2, by simp [noAdjDupTc, tcView], ?_⟩
      intro x hx y hy
      have hy' : y = Ev.trackChange i := (by simpa [tcView] using hy : _ = y).symm
      subst hy'
      cases p with
      | none =>
        rcases h3 with h3 | h3
        · simp only at h3
          simp [h3] at hx
        · have hx' : x = Ev.playlistLoaded := by
            simp only at h3
            rw [h3] at hx
            exact (by simpa using hx : _ = x).symm
          subst hx'
          rfl
      | some j =>
        have hx' : x = Ev.trackChange j := by
          simp only at h3
          rw [h3] at hx
          exact (by simpa using hx : _ = x).symm
        subst hx'
        simp only [tcOkB, decide_eq_true_eq]
        intro hji
        exact hp (by rw [hji])
    · show (tcView (l ++ [Ev.trackChange i])).getLast? = some (Ev.trackChange i)
      rw [tcView_append]
      simp [tcView, List.getLast?_append]

theorem invT_reset (t : Bool × Option ℕ × List Ev) (h : InvT t) :
    InvT (dapply .reset t) := by
  obtain ⟨r, p, l⟩ := t
  obtain ⟨h1, h2, h3⟩ := h
  refine ⟨h1, ?_, Or.inr ?_⟩
  · show noAdjDupTc (tcView (l ++ [Ev.playlistLoaded]))
    rw [tcView_append]
    refine List.chain'_append.mpr ⟨h2, by simp [noAdjDupTc, tcView], ?_⟩
    intro x hx y hy
    have hy' : y = Ev.playlistLoaded := (by simpa [tcView] using hy : _ = y).symm
    subst hy'
    cases x <;> rfl
  · show (tcView (l ++ [Ev.playlistLoaded])).getLast? = some Ev.playlistLoaded
    rw [tcView_append]
    simp [tcView, List.getLast?_append]

theorem invT_dapplyList (as : List DAct) (has : ∀ a ∈ as, goodAct a)
    (t : Bool × Option ℕ × List Ev) (h : InvT t) : InvT (dapplyList as t) := by
  induction as generalizing t with
  | nil => exact h
  | cons a as ih =>
    have ha : goodAct a := has a (List.mem_cons_self a as)
    refine ih (fun a' ha' => has a' (List.mem_cons_of_mem _ ha')) _ ?_
    cases a with
    | emit e => exact invT_emit e ha _ h
    | dispatch i => exact invT_dispatch i _ h
    | reset => exact invT_reset _ h

/-- transfer along an action-list characterization -/
theorem inv_of_acts (s s' : PlayerState) (as : List DAct) (has : ∀ a ∈ as, goodAct a)
    (heq : dspTriple s' = dapplyList as (dspTriple s)) (h : Inv s) : Inv s' := by
  rw [Inv, heq]
  exact invT_dapplyList as has _ h

theorem inv_of_dspEq (s s' : PlayerState) (heq : dspTriple s' = dspTriple s)
    (h : Inv s) : Inv s' := by
  rw [Inv, heq]
  exact h

theorem inv_resetStep (s s' : PlayerState)
    (heq : dspTriple s' = dapply .reset (dspTriple s)) (h : Inv s) : Inv s' := by
  rw [Inv, heq]
  exact invT_reset _ h

theorem inv_pause (s : PlayerState) (h : Inv s) : Inv (pause s) := by
  rw [Inv, (rfl : dspTriple (pause s) = dapply (.emit .pause) (dspTriple s))]
  exact invT_emit Ev.pause rfl _ h

theorem inv_stop (s : PlayerState) (h : Inv s) : Inv (stop s) := by
  rw [Inv, (rfl : dspTriple (stop s) = dapply (.emit .stop) (dspTriple s))]
  exact invT_emit Ev.stop rfl _ h

theorem inv_reject (s : PlayerState) (h : Inv s) : Inv (playRejectionHandler s) := by
  rw [Inv, (rfl : dspTriple (playRejectionHandler s) = dapply (.emit .pause) (dspTriple s))]
  exact invT_emit Ev.pause rfl _ h

theorem inv_seek (sec : ℚ) (s : PlayerState) (h : Inv s) : Inv (seek sec s) := by
  unfold seek
  split
  · exact inv_of_dspEq _ _ rfl h
  · exact inv_of_dspEq _ _ rfl h

theorem dspTriple_handleUdfTrackChange (i : ℕ) (s : PlayerState) :
    dspTriple (handleUdfTrackChange i s) = dapply (.dispatch i) (dspTriple s) := by
  cases hr : s.tcHandlerRegistered <;>
    by_cases hp : s.udfPrevTrackChangeHandlerIndex = some i <;>
    simp [handleUdfTrackChange, dapply, dspTriple, emitEv, hr, hp]

theorem inv_handleUdfTrackChange (i : ℕ) (s : PlayerState) (h : Inv s) :
    Inv (handleUdfTrackChange i s) := by
  rw [Inv, dspTriple_handleUdfTrackChange]
  exact invT_dispatch i _ h

theorem dspTriple_play (s : PlayerState) :
    dspTriple (play s) =
      dapplyList ([DAct.dispatch s.playlistIndex] ++
        if s.playing then [] else [DAct.emit Ev.play]) (dspTriple s) := by
  cases hp : s.playing <;> cases hd : s.deferredAudioSrc <;>
    cases ht : s.deferredInitialSeekTime <;> cases hr : s.tcHandlerRegistered <;>
    by_cases hpv : s.udfPrevTrackChangeHandlerIndex = some s.playlistIndex <;>
    simp [play, dapplyList, dapply, dspTriple, handleUdfTrackChange, handleUdfPlay,
      emitEv, enginePlay, engineSetSrc, engineSetCurrentTime, hp, hd, ht, hr, hpv]

theorem inv_play (s : PlayerState) (h : Inv s) : Inv (play s) := by
  rw [Inv, dspTriple_play]
  refine invT_dapplyList _ ?_ _ h
  intro a ha
  cases hp : s.playing <;> rw [hp] at ha <;> simp at ha
  · rcases ha with rfl | rfl
    · exact trivial
    · exact rfl
  · rw [ha]
    exact trivial

theorem inv_prevTrack (s : PlayerState) (h : Inv s) : Inv (prevTrack s) := by
  simp only [prevTrack]
  exact inv_play _ (inv_handleUdfTrackChange _ _ (inv_of_dspEq _ _ rfl h))

theorem inv_nextTrack (s : PlayerState) (h : Inv s) : Inv (nextTrack s) := by
  simp only [nextTrack]
  exact inv_play _ (inv_handleUdfTrackChange _ _ (inv_of_dspEq _ _ rfl h))

theorem inv_playTrack (i : ℤ) (s : PlayerState) (h : Inv s) : Inv (playTrack i s) := by
  simp only [playTrack]
  split
  · exact h
  · refine inv_play _ (inv_of_dspEq _ _ rfl (?_ : Inv _))
    split
    · exact inv_of_dspEq _ _ rfl h
    · exact h

theorem dspTriple_loadPlaylistOk (pl : List Track) (s : PlayerState) :
    dspTriple (loadPlaylistOk pl s) =
      dapplyList ((if s.playing then [DAct.emit Ev.pause] else []) ++
        [DAct.reset, DAct.dispatch 0] ++
        (if s.playing then [DAct.dispatch 0, DAct.emit Ev.play] else []))
        (dspTriple s) := by
  cases hw : s.playing <;> cases hr : s.tcHandlerRegistered <;>
    simp [loadPlaylistOk, pause_spec, engineSetSrc, handleUdfTrackChange, emitEv,
      play, enginePlay, engineSetCurrentTime, handleUdfPlay, dapplyList, dapply,
      dspTriple, hw, hr]

theorem inv_loadPlaylistOk (pl : List Track) (s : PlayerState) (h : Inv s) :
    Inv (loadPlaylistOk pl s) := by
  refine inv_of_acts _ _ _ ?_ (dspTriple_loadPlaylistOk pl s) h
  intro a ha
  have hcase : a = DAct.emit Ev.pause ∨ a = DAct.reset ∨ a = DAct.dispatch 0 ∨
      a = DAct.emit Ev.play := by
    cases hw : s.playing <;> rw [hw] at ha <;> simp at ha <;> tauto
  rcases hcase with rfl | rfl | rfl | rfl <;> first | exact trivial | exact rfl

theorem inv_playPause (s : PlayerState) (h : Inv s) : Inv (playPause s) := by
  unfold playPause
  split
  · exact inv_pause _ h
  · exact inv_play _ h

theorem inv_tick (s : PlayerState) (h : Inv s) : Inv (playStateIntervalHandler s) := by
  simp only [playStateIntervalHandler]
  split
  · split
    · split
      · exact inv_nextTrack _ h
      · exact inv_handleUdfTrackChange _ _ (inv_of_dspEq _ _ rfl (inv_pause _ h))
    · split
      · exact inv_pause _ h
      · exact h
  · split
    · exact inv_play _ h
    · exact h

theorem inv_withPlayOutcome (fail : Bool) (s0 s : PlayerState) (h : Inv s) :
    Inv (withPlayOutcome fail s0 s) := by
  unfold withPlayOutcome
  split
  · exact inv_reject _ h
  · exact h

theorem inv_applyOp (op : Op) (s : PlayerState) (h : Inv s) : Inv (applyOp s op) := by
  cases op with
  | load fail upl =>
    simp only [applyOp]
    cases upl with
    | none => exact h
    | some pl =>
      simp only [loadPlaylist]
      by_cases h0 : pl.length = 0
      · rw [if_pos h0]
        exact h
      · rw [if_neg h0]
        cases hf : pl.findIdx? (fun t => t.url.isNone) with
        | some i => exact h
        | none => exact inv_withPlayOutcome _ _ _ (inv_loadPlaylistOk _ _ h)
  | play fail => exact inv_withPlayOutcome _ _ _ (inv_play _ h)
  | pause => exact inv_pause _ h
  | stop => exact inv_stop _ h
  | playPause fail => exact inv_withPlayOutcome _ _ _ (inv_playPause _ h)
  | seek sec => exact inv_seek _ _ h
  | prev fail => exact inv_withPlayOutcome _ _ _ (inv_prevTrack _ h)
  | next fail => exact inv_withPlayOutcome _ _ _ (inv_nextTrack _ h)
  | playTrack fail i => exact inv_withPlayOutcome _ _ _ (inv_playTrack _ _ h)
  | tick fail => exact inv_withPlayOutcome _ _ _ (inv_tick _ h)
  | extSetEnded b => exact inv_of_dspEq _ _ rfl h
  | extSetPaused b => exact inv_of_dspEq _ _ rfl h

theorem inv_run (ops : List Op) (s : PlayerState) (h : Inv s) : Inv (run ops s) := by
  induction ops generalizing s with
  | nil => exact h
  | cons op ops ih => exact ih _ (inv_applyOp op s h)

theorem inv_initState : Inv initState :=
  ⟨rfl, by simp [noAdjDupTc, tcView, dspTriple, initState], Or.inl rfl⟩

/-- With a handler registered, a successful load always delivers the
track-change for index 0, whatever the previous remembered index was:
the dispatch after the dedup reset fires, and the dispatch inside the
restart `play()` is deduplicated. -/
theorem loadPlaylistOk_events (pl : List Track) (s : PlayerState)
    (hreg : s.tcHandlerRegistered = true) :
    (loadPlaylistOk pl s).events = s.events ++
      (if s.playing then [Ev.pause, Ev.playlistLoaded, Ev.trackChange 0, Ev.play]
       else [Ev.playlistLoaded, Ev.trackChange 0]) := by
  cases hw : s.playing <;>
    simp [loadPlaylistOk, hw, hreg, pause_spec, engineSetSrc, handleUdfTrackChange,
      emitEv, play, enginePlay, engineSetCurrentTime, handleUdfPlay]

/-- Events appended by the asynchronous play-rejection composition never
include a track change. -/
theorem withPlayOutcome_events (fail : Bool) (s0 s : PlayerState) :
    (withPlayOutcome fail s0 s).events = s.events ∨
    (withPlayOutcome fail s0 s).events = s.events ++ [Ev.pause] := by
  unfold withPlayOutcome
  split
  · right
    rw [playRejectionHandler_spec]
  · left
    rfl

/-- A valid fresh load increments the number of delivered index-0 track
changes by exactly one (handler registered). -/
theorem applyOp_load_count (fail : Bool) (pl : List Track) (s : PlayerState)
    (hreg : s.tcHandlerRegistered = true) (hne : pl ≠ [])
    (hurl : ∀ t ∈ pl, t.url ≠ none) :
    ((applyOp s (.load fail (some pl))).events).count (Ev.trackChange 0)
      = (s.events).count (Ev.trackChange 0) + 1 := by
  have h0 : ¬ pl.length = 0 := by
    simpa [List.length_eq_zero] using hne
  have hf : pl.findIdx? (fun t => t.url.isNone) = none := by
    rw [List.findIdx?_eq_none_iff]
    intro t ht
    simpa [Option.isSome_iff_ne_none] using hurl t ht
  simp only [applyOp, loadPlaylist, if_neg h0, hf]
  rcases withPlayOutcome_events fail s (loadPlaylistOk pl s) with hev | hev <;>
    rw [hev, loadPlaylistOk_events pl s hreg] <;>
    cases hw : s.playing <;>
    simp [List.count_append]

/-- **C3.** Over every sequence of operations from the initial state
(track-change handler registered), the delivered track-change sequence
never contains two adjacent deliveries with the same index except across
a playlist-load marker, and a fresh valid `loadPlaylist` always delivers
exactly one additional track change for index 0 — even when the last
index delivered for the previous playlist was also 0 — because the
remembered last-delivered index is reset to none before the dispatch. -/
theorem c3_trackchange_dedup (ops : List Op) :
    noAdjDupTc (tcView (run ops initState).events) ∧
    (∀ (fail : Bool) (pl : List Track), pl ≠ [] → (∀ t ∈ pl, t.url ≠ none) →
      ((applyOp (run ops initState) (.load fail (some pl))).events).count
          (Ev.trackChange 0)
        = ((run ops initState).events).count (Ev.trackChange 0) + 1) := by
  have hinv : Inv (run ops initState) := inv_run ops initState inv_initState
  exact ⟨hinv.2.1, fun fail pl hne hurl =>
    applyOp_load_count fail pl _ hinv.1 hne hurl⟩

/-- **C3 witness**: a run that plays through a playlist whose last
delivered index is 0, then reloads — the reload delivers index 0 again,
exactly once. -/
theorem c3_trackchange_dedup_witness :
    noAdjDupTc (tcView (run [Op.load false (some [⟨some "a.mp3"⟩]), Op.play false]
      initState).events) ∧
    ([(⟨some "a.mp3"⟩ : Track)] ≠ ([] : List Track) ∧
      ((applyOp (run [Op.load false (some [⟨some "a.mp3"⟩]), Op.play false] initState)
          (.load false (some [⟨some "a.mp3"⟩]))).events).count (Ev.trackChange 0)
        = ((run [Op.load false (some [⟨some "a.mp3"⟩]), Op.play false]
            initState).events).count (Ev.trackChange 0) + 1) :=
  ⟨(c3_trackchange_dedup _).1,
    by simp,
    (c3_trackchange_dedup _).2 false _ (by simp) (by simp)⟩

end Diy
